import Mathlib

/-!
Shallow embedding of src/Aichatbot.py, an interactive shop chatbot that
matches product names (exact / substring / fuzzy), records sales against an
inventory, and persists a product catalog and a sales ledger.

Python strings are modelled as lists of characters (`Str`), Python ints as
`Int`, JSON documents (where their shape matters) as `JVal`.  Every
definition mirrors the corresponding Python function; line numbers in the
doc comments refer to src/Aichatbot.py.
-/

set_option maxRecDepth 8000

/-- Python strings, modelled as lists of characters. -/
abbrev Str := List Char

/-- The characters removed by Python's default `str.strip()` and matched by
the regex class `\s` (space, tab, newline, vertical tab, form feed,
carriage return), identified by code point. -/
def isSpaceChar (c : Char) : Bool :=
  c.toNat = 32 ∨ (9 ≤ c.toNat ∧ c.toNat ≤ 13)

/-- `str.strip()`: drop leading and trailing whitespace. -/
def pyStrip (s : Str) : Str :=
  ((s.dropWhile isSpaceChar).reverse.dropWhile isSpaceChar).reverse

/-- ASCII `str.lower()` on one character (the repository's data is ASCII). -/
def lowerChar (c : Char) : Char :=
  if 65 ≤ c.toNat ∧ c.toNat ≤ 90 then Char.ofNat (c.toNat + 32) else c

/-- ASCII `str.upper()` on one character. -/
def upperChar (c : Char) : Char :=
  if 97 ≤ c.toNat ∧ c.toNat ≤ 122 then Char.ofNat (c.toNat - 32) else c

/-- `str.lower()`. -/
def strLower (s : Str) : Str := s.map lowerChar

/-- `str.upper()`. -/
def strUpper (s : Str) : Str := s.map upperChar

/-- Python's `pat in text` substring test. -/
def containsSub (pat text : Str) : Bool :=
  (List.range (text.length + 1)).any (fun i => pat.isPrefixOf (text.drop i))

/-- An ASCII digit `0`–`9`, identified by code point (what `\d` matches
and `str.isdigit()` accepts on this program's ASCII inputs). -/
def isDigitChar (c : Char) : Bool := 48 ≤ c.toNat ∧ c.toNat ≤ 57

/-- `str.isdigit()` restricted to ASCII digits, as used on regex groups
captured by `\d+` (nonempty, all digits). -/
def isDigits (s : Str) : Bool := s ≠ [] && s.all isDigitChar

/-- Python `int()` of a digit string. -/
def intOfDigits (s : Str) : Int :=
  (s.foldl (fun n c => n * 10 + (c.toNat - 48)) 0 : Nat)

/-- Python `str` comparison (`<`), code-point lexicographic; used by
`heapq.nlargest` when it compares the `(ratio, name)` tuples built inside
`difflib.get_close_matches`. -/
def strLt : Str → Str → Bool
  | [], [] => false
  | [], _ :: _ => true
  | _ :: _, [] => false
  | a :: as, b :: bs => if a = b then strLt as bs else decide (a < b)

/-- First index whose element satisfies the predicate; mirrors the Python
loops `for p in products: if cond(p): return p` (the returned index recovers
the returned object, which is shared by reference with the catalog list). -/
def findIdxA {α : Type} (p : α → Bool) : List α → Option Nat
  | [] => none
  | a :: l => if p a then some 0 else (findIdxA p l).map (· + 1)

/-- Length of the common run of equal characters at the heads of two
lists (the size of the matching block starting at a given position pair). -/
def commonRun : List Char → List Char → Nat
  | a :: as, b :: bs => if a = b then commonRun as bs + 1 else 0
  | _, _ => 0

/-- `difflib.SequenceMatcher.find_longest_match` over the whole strings
(no junk; `autojunk` only affects sequences of length ≥ 200, far beyond the
inputs this program sees).  Returns `(i, j, size)`: the largest matching
block, ties broken by the smallest start in `a`, then the smallest start in
`b` — exactly the first maximum found when scanning end positions in
ascending `(i, j)` order, as the Python loop does. -/
def bestBlock (a b : List Char) : Nat × Nat × Nat :=
  ((List.range a.length).flatMap (fun i =>
      (List.range b.length).map (fun j => (i, j, commonRun (a.drop i) (b.drop j))))).foldl
    (fun best c => if best.2.2 < c.2.2 then c else best) (0, 0, 0)

/-- Total size of the matching blocks of `difflib.SequenceMatcher`
(Ratcliff/Obershelp): recursively take the longest matching block and
recurse on the pieces to its left and to its right.  The fuel argument only
serves termination; `a.length + b.length` strictly decreases at every
recursive call (the block is nonempty), so the initial fuel
`a.length + b.length + 1` is never exhausted. -/
def matchSizeF : Nat → List Char → List Char → Nat
  | 0, _, _ => 0
  | fuel + 1, a, b =>
    let ijk := bestBlock a b
    if ijk.2.2 = 0 then 0
    else
      matchSizeF fuel (a.take ijk.1) (b.take ijk.2.1) + ijk.2.2 +
      matchSizeF fuel (a.drop (ijk.1 + ijk.2.2)) (b.drop (ijk.2.1 + ijk.2.2))

/-- Total number of matched characters between `a` and `b`. -/
def matchSize (a b : List Char) : Nat :=
  matchSizeF (a.length + b.length + 1) a b

/-- `difflib.SequenceMatcher(None, a, b).ratio()` as an exact fraction
`(numerator, denominator)`: `2·M / T` where `M` is the number of matched
characters and `T` the total length; `1/1` when both strings are empty
(`difflib._calculate_ratio`).  The denominator is always positive. -/
def ratioPair (a b : List Char) : Nat × Nat :=
  if a.length + b.length = 0 then (1, 1)
  else (2 * matchSize a b, a.length + b.length)

/-- `x ≤ y` on nonnegative fractions with positive denominators, by cross
multiplication.  The floats `difflib` compares are far closer to the exact
ratios than to each other (the exact values, when distinct, differ by at
least `1/(d₁·d₂)`, far above double rounding error), so the exact
comparison coincides with the float one on this program's data. -/
def fracLe (x y : Nat × Nat) : Bool := x.1 * y.2 ≤ y.1 * x.2

/-- `x < y` on nonnegative fractions with positive denominators. -/
def fracLt (x y : Nat × Nat) : Bool := x.1 * y.2 < y.1 * x.2

/-- `x = y` on nonnegative fractions with positive denominators. -/
def fracEq (x y : Nat × Nat) : Bool := x.1 * y.2 = y.1 * x.2

/-- The similarity ratio as a rational number, for stating properties. -/
def pyRatio (a b : List Char) : ℚ :=
  ((ratioPair a b).1 : ℚ) / ((ratioPair a b).2 : ℚ)

/-- `difflib.get_close_matches(word, possibilities, n=1, cutoff)`:
keep the possibilities whose ratio to `word` reaches the cutoff
(`quick_ratio` and `real_quick_ratio` are upper bounds of `ratio`, so the
three-stage filter is equivalent to `ratio ≥ cutoff`), then return the
best one.  `heapq.nlargest(1, …)` compares `(ratio, possibility)` tuples,
so ties on the ratio go to the code-point-largest string; the first
occurrence wins among fully equal tuples. -/
def get_close_matches1 (word : Str) (possibilities : List Str) (cutoff : Nat × Nat) :
    Option Str :=
  let good := possibilities.filter (fun x => fracLe cutoff (ratioPair x word))
  good.foldl
    (fun best x =>
      match best with
      | none => some x
      | some b =>
        if fracLt (ratioPair b word) (ratioPair x word) ∨
            (fracEq (ratioPair b word) (ratioPair x word) ∧ strLt b x = true) then some x
        else some b)
    none

/-- A product record `{name, price, stock}`.  The Python code reads the
fields with `dict.get` and defaults `""`/`0`; the model assumes the fields
are present (the defaults appear as `dfltP` where an absent product is
needed to make a lookup total). -/
structure Product where
  name : Str
  price : Int
  stock : Int
deriving DecidableEq, Repr

/-- The product used where `dict.get` defaults would apply. -/
def dfltP : Product := ⟨[], 0, 0⟩

/-- A sale record (invoice), lines 124–132. -/
structure Sale where
  invoice_number : Str
  product_name : Str
  quantity : Int
  unit_price : Int
  total : Int
  payment_method : Str
  date : Str
deriving DecidableEq, Repr

/-- The structural shape of the persisted catalog (`product.json`): a
single product object or a list of product objects. -/
inductive CatShape where
  | single (p : Product)
  | multiple (ps : List Product)
deriving DecidableEq, Repr

/-- The observable outcome of one input line: which message(s) the program
prints (or which sale it records).  Each constructor corresponds to one
`print` site in src/Aichatbot.py. -/
inductive Reply where
  | noReply                              -- empty input, line 165
  | helpShown                            -- line 171
  | goodbye                              -- line 174 (SystemExit)
  | productsShown (ps : List Product)    -- show_products, line 177
  | noSalesRecorded                      -- show_sales, line 98
  | noSalesMatch                         -- show_sales, line 104
  | salesListed (entries : List Sale)    -- show_sales, lines 107–108, display order
  | noSalesYet                           -- line 189
  | productShown (p : Product)           -- show_product, lines 92–94
  | productNotFound                      -- lines 202, 219, 247
  | productNotFoundTry                   -- line 245
  | cantParseQty                         -- line 215
  | qtyMustBePositive                    -- record_sale, line 115
  | notEnoughStock (available : Int)     -- record_sale, line 119
  | saleRecorded (inv : Sale)            -- record_sale, lines 150–151
  | noProductSelected                    -- line 254
  | notUnderstood                        -- line 278
deriving DecidableEq, Repr

/-- The session state (the `state` dict built in `main`, lines 307–312),
together with the two persisted files.  `products_raw` and `products_list`
alias the same product dicts, so they are represented once as `catalog`;
`selected` is the index of `last_selected_product` in the catalog (the
Python value is a reference to one of the catalog's dicts). -/
structure Sess where
  catalog : List Product      -- state["products_list"] (= products_raw when a list)
  fileCat : CatShape          -- current contents of product.json
  fileSales : List Sale       -- current contents of sale.json
  lastSales : List Sale       -- state["last_sales"]
  selected : Option Nat       -- state["last_selected_product"]
deriving DecidableEq, Repr

/-- The nondeterministic inputs of one sale: the invoice number produced by
`create_invoice_number()` (uuid + date) and the timestamp. -/
structure SellEnv where
  invNo : Str
  date : Str
deriving DecidableEq, Repr

/-- `find_product_by_name` (lines 53–76), returning the index of the
returned product (the Python function returns the dict itself, which is an
element of `products`).  Tier 1: case-insensitive whitespace-trimmed
equality (line 60).  Tier 2: substring (line 65).  Tier 3: fuzzy via
`difflib.get_close_matches` with `n=1, cutoff=0.6` on the raw (untrimmed)
names, then the first product whose raw name equals the match (lines
69–75).  The callers never override the default cutoff. -/
def find_product_idx (products : List Product) (name0 : Str) : Option Nat :=
  let name := pyStrip name0
  if name = [] then none
  else
    match findIdxA (fun p => decide (strLower (pyStrip p.name) = strLower name)) products with
    | some i => some i
    | none =>
      match findIdxA
          (fun p => containsSub (strLower name) (strLower (pyStrip p.name))) products with
      | some i => some i
      | none =>
        match get_close_matches1 name (products.map (fun p => p.name)) (3, 5) with
        | some mn => findIdxA (fun p => decide (p.name = mn)) products
        | none => none

/-- `find_product_by_name` as the source writes it: the product object. -/
def find_product_by_name (products : List Product) (name : Str) : Option Product :=
  match find_product_idx products name with
  | some i => products[i]?
  | none => none

/-- `show_sales(sales, filter_name)` (lines 96–109).  A falsy filter
(Python `if filter_name:`; `None` or the empty string) lists everything;
the filter is a case-insensitive substring test on `product_name`; entries
print in `reversed(items)` order (most recent first). -/
def show_sales_reply (sales : List Sale) (filterName : Option Str) : Reply :=
  if sales = [] then .noSalesRecorded
  else
    let items :=
      match filterName with
      | some n =>
        if n = [] then sales
        else sales.filter (fun s => containsSub (strLower n) (strLower s.product_name))
      | none => sales
    if items = [] then .noSalesMatch
    else .salesListed items.reverse

/-- The updated state produced by a successful `record_sale`. -/
structure SellResult where
  catalog : List Product
  fileCat : CatShape
  fileSales : List Sale
  sale : Sale
deriving DecidableEq, Repr

/-- `record_sale(product, qty, payment_method, products_raw)` (lines
112–152).  `product` is `catalog[i]` (shared by reference with the
catalog), so the in-place `product["stock"] = stock - qty` becomes
`catalog.set i`.  `argIsSingle` is `isinstance(products_raw, dict)`
(line 137): when true the updated product object alone is written to
`product.json`, otherwise the whole list is.  The sale file is re-loaded,
appended to, and written back (lines 145–148); post-startup it is always a
list, so `ensure_sales_list` is the identity on it. -/
def record_sale (catalog : List Product) (i : Nat) (qty : Int) (pm : Str)
    (argIsSingle : Bool) (fileSales : List Sale) (env : SellEnv) :
    Reply × Option SellResult :=
  let product := (catalog[i]?).getD dfltP
  if qty ≤ 0 then (.qtyMustBePositive, none)
  else if product.stock < qty then (.notEnoughStock product.stock, none)
  else
    let unit_price := product.price
    let total := unit_price * qty
    let invoice : Sale :=
      { invoice_number := env.invNo
        product_name := product.name
        quantity := qty
        unit_price := unit_price
        total := total
        payment_method := pm
        date := env.date }
    let product' := { product with stock := product.stock - qty }
    let catalog' := catalog.set i product'
    let fileCat' := if argIsSingle then CatShape.single product' else CatShape.multiple catalog'
    (.saleRecorded invoice, some ⟨catalog', fileCat', fileSales ++ [invoice], invoice⟩)

/-- The shared sell flow of `parse_and_handle` (lines 221–226, 235–240,
256–261): prompt for the payment method (blank defaults to `CASH`, line
221), call `record_sale`, and on success refresh `last_sales` from the
sale file and remember the product as selected.  The `products_raw`
argument passed at line 222 is `products_raw if isinstance(products_raw,
list) else products_list` — a list in both cases — so `record_sale`
always receives `argIsSingle = false` here. -/
def doSell (s : Sess) (i : Nat) (qty : Int) (pmRaw : Str) (env : SellEnv) : Sess × Reply :=
  let pmt := strUpper (pyStrip pmRaw)
  let pm := if pmt = [] then "CASH".toList else pmt
  match record_sale s.catalog i qty pm false s.fileSales env with
  | (r, none) => (s, r)
  | (r, some res) =>
    ({ s with
        catalog := res.catalog
        fileCat := res.fileCat
        fileSales := res.fileSales
        lastSales := res.fileSales
        selected := some i }, r)

/-- The group of `re.match(r"sales(?:\s+for\s+(.+))?", u, re.I)`
(line 181): `none` when the regex does not match at the start of `u` or
when the optional `for`-part is absent; otherwise the (greedy, nonempty)
name after `for`. -/
def salesForGroup (u : Str) : Option Str :=
  if "sales".toList.isPrefixOf (strLower u) then
    let rest := u.drop 5
    let rest1 := rest.dropWhile isSpaceChar
    if rest1.length < rest.length ∧ "for".toList.isPrefixOf (strLower rest1) then
      let rest2 := rest1.drop 3
      let rest3 := rest2.dropWhile isSpaceChar
      if rest3.length < rest2.length ∧ rest3 ≠ [] then some rest3 else none
    else none
  else none

/-- One alternative of the regex at line 194: the literal `lit`,
case-insensitively, then `\s+`, then a nonempty remainder (the group). -/
def litThenName (lit : String) (u : Str) : Option Str :=
  if lit.toList.isPrefixOf (strLower u) then
    let rest := u.drop lit.length
    let rest1 := rest.dropWhile isSpaceChar
    if rest1.length < rest.length ∧ rest1 ≠ [] then some rest1 else none
  else none

/-- The group of
`re.match(r"(?:show|price of|how many|what is the price of)\s+(.+)", u, re.I)`
(line 194); the alternatives are tried left to right and do not overlap. -/
def showNameGroup (u : Str) : Option Str :=
  match litThenName "show" u with
  | some n => some n
  | none =>
    match litThenName "price of" u with
    | some n => some n
    | none =>
      match litThenName "how many" u with
      | some n => some n
      | none => litThenName "what is the price of" u

/-- Groups of `re.match(r"sell\s+(\d+)\s+(.+)", u, re.I)` (line 206,
first alternative).  Backtracking cannot rescue a failed greedy scan here:
shortening `\s+` puts `\d+` on a space and shortening `\d+` puts `\s+` on
a digit. -/
def sellRegex1 (u : Str) : Option (Str × Str) :=
  if "sell".toList.isPrefixOf (strLower u) then
    let r := u.drop 4
    let r1 := r.dropWhile isSpaceChar
    if r1.length < r.length then
      let ds := r1.takeWhile isDigitChar
      if ds = [] then none
      else
        let r2 := r1.drop ds.length
        let r3 := r2.dropWhile isSpaceChar
        if r3.length < r2.length ∧ r3 ≠ [] then some (ds, r3) else none
    else none
  else none

/-- Groups of `re.match(r"sell\s+(.+?)\s+(\d+)$", u, re.I)` (line 206,
second alternative).  The lazy `(.+?)` makes the split unique: `(\d+)$` is
the maximal trailing digit run, `\s+` the maximal whitespace run before
it, and the group everything in between, which is nonempty because the
scan after `sell\s+` starts on a non-space.  One backtracking corner
remains: when everything after `sell` is whitespace followed only by
digits, the outer `\s+` gives back spaces and the lazy group captures a
single space (so the later `strip()` yields an empty name) — this needs at
least three spaces. -/
def sellRegex2 (u : Str) : Option (Str × Str) :=
  if "sell".toList.isPrefixOf (strLower u) then
    let r := u.drop 4
    let wn := (r.takeWhile isSpaceChar).length
    if 0 < wn then
      let r1 := r.drop wn
      let rev := r1.reverse
      let ds := rev.takeWhile isDigitChar
      if ds = [] then none
      else if ds.length = r1.length then
        if 3 ≤ wn then some ([' '], r1) else none
      else
        let rev2 := rev.drop ds.length
        let ws := rev2.takeWhile isSpaceChar
        if ws = [] then none
        else some ((rev2.drop ws.length).reverse, ds.reverse)
    else none
  else none

/-- Groups of `re.match(r"^(\d+)\s+(.+)$", u)` (line 229). -/
def qtyNameGroups (u : Str) : Option (Str × Str) :=
  let ds := u.takeWhile isDigitChar
  if ds = [] then none
  else
    let rest := u.drop ds.length
    let rest1 := rest.dropWhile isSpaceChar
    if rest1.length < rest.length ∧ rest1 ≠ [] then some (ds, rest1) else none

/-- Lines 217–226: resolve the name and sell. -/
def sellNamed (s : Sess) (qty : Int) (name : Str) (pmRaw : Str) (env : SellEnv) :
    Sess × Reply :=
  match find_product_idx s.catalog name with
  | none => (s, .productNotFound)
  | some i => doSell s i qty pmRaw env

/-- Lines 263–278: the final fallback — try the whole input as a product
name to select/view; then the (unreachable, because inputs starting with
`sales` were already dispatched at line 179) `sales\s+for\s+(.+)` pattern
of line 271, whose group condition coincides with `salesForGroup`; then
the generic not-understood message. -/
def handleFallback (s : Sess) (u : Str) : Sess × Reply :=
  match find_product_idx s.catalog u with
  | some i => ({ s with selected := some i }, .productShown ((s.catalog[i]?).getD dfltP))
  | none =>
    match salesForGroup u with
    | some name => (s, show_sales_reply s.lastSales (some name))
    | none => (s, .notUnderstood)

/-- Lines 250–261: a bare integer sells that quantity of the selected
product, if any. -/
def handleBareQty (s : Sess) (u : Str) (pmRaw : Str) (env : SellEnv) : Sess × Reply :=
  if isDigits u then
    match s.selected with
    | none => (s, .noProductSelected)
    | some i => doSell s i (intOfDigits u) pmRaw env
  else handleFallback s u

/-- Lines 228–248: `<qty> <name>`; when the name does not resolve the
message depends on whether a product is selected (lines 243–247); it does
not fall back to the selected product. -/
def handleQtyName (s : Sess) (u : Str) (pmRaw : Str) (env : SellEnv) : Sess × Reply :=
  match qtyNameGroups u with
  | some (ds, name) =>
    (match find_product_idx s.catalog (pyStrip name) with
     | some i => doSell s i (intOfDigits ds) pmRaw env
     | none => if s.selected.isSome then (s, .productNotFoundTry) else (s, .productNotFound))
  | none => handleBareQty s u pmRaw env

/-- Lines 205–226: the two `sell` patterns; the quantity is whichever
group is all digits (`g1` for the first pattern, `g2` for the second; the
"Couldn't parse quantity" branch at line 215 is unreachable), and the
other group, stripped, is the name. -/
def handleSell (s : Sess) (u : Str) (pmRaw : Str) (env : SellEnv) : Sess × Reply :=
  match (match sellRegex1 u with | some g => some g | none => sellRegex2 u) with
  | some (g1, g2) =>
    if isDigits g1 then sellNamed s (intOfDigits g1) (pyStrip g2) pmRaw env
    else if isDigits g2 then sellNamed s (intOfDigits g2) (pyStrip g1) pmRaw env
    else (s, .cantParseQty)
  | none => handleQtyName s u pmRaw env

/-- `parse_and_handle(user, state)` (lines 155–278) as a state
transformer.  `pmRaw` is the answer the operator would give to the payment
prompt and `env` the invoice number / timestamp oracle; both are consumed
only by sell flows.  Branches appear in source order; note that the
`show sales` / `sales` dispatch (line 179) precedes the `show <name>`
family (line 191), and that inside the latter the regex always matches
when the `startswith` guard passed, the guards requiring a trailing space
after the keyword. -/
def parse_and_handle (s : Sess) (user pmRaw : Str) (env : SellEnv) : Sess × Reply :=
  let u := pyStrip user
  if u = [] then (s, .noReply)
  else
    let low := strLower u
    if low = "help".toList ∨ low = "?".toList then (s, .helpShown)
    else if low = "exit".toList ∨ low = "quit".toList then (s, .goodbye)
    else if low = "show products".toList ∨ low = "list products".toList ∨
        low = "products".toList then (s, .productsShown s.catalog)
    else if "show sales".toList.isPrefixOf low ∨ "sales".toList.isPrefixOf low then
      (s, show_sales_reply s.lastSales (salesForGroup u))
    else if low = "show last sale".toList ∨ low = "last sale".toList then
      (s, match s.lastSales.getLast? with
          | some last => show_sales_reply [last] none
          | none => .noSalesYet)
    else if "show ".toList.isPrefixOf low ∨ "price of ".toList.isPrefixOf low ∨
        "how many ".toList.isPrefixOf low then
      match showNameGroup u with
      | some name =>
        (match find_product_idx s.catalog (pyStrip name) with
         | some i => ({ s with selected := some i },
                      .productShown ((s.catalog[i]?).getD dfltP))
         | none => (s, .productNotFound))
      | none => handleSell s u pmRaw env
    else handleSell s u pmRaw env

/-- A whole session: fold `parse_and_handle` over the input lines (each
with its payment-prompt answer and invoice oracle).  `exit`/`quit` raise
`SystemExit`, which only stops the loop; the goodbye branch changes no
state, so folding past it is harmless for state invariants. -/
def runSession (s : Sess) (inputs : List (Str × Str × SellEnv)) : Sess :=
  inputs.foldl (fun s inp => (parse_and_handle s inp.1 inp.2.1 inp.2.2).1) s

/-- `main` (lines 296–312) up to the prompt loop: ensure the files exist
(writing the default single product `Galaxy A-17` and the empty ledger),
load and normalize them, and build the initial state.
`last_selected_product` starts as `products_list[0]` when the catalog has
exactly one product, else `None` (line 310). -/
def mainInit (praw : Option CatShape) (sraw : Option (List Sale)) : Sess :=
  let raw := praw.getD (.single ⟨"Galaxy A-17".toList, 20000, 20⟩)
  let products_list := match raw with | .single p => [p] | .multiple ps => ps
  let sales := sraw.getD []
  { catalog := products_list
    fileCat := raw
    fileSales := sales
    lastSales := sales
    selected := if products_list.length = 1 then some 0 else none }

/-- JSON-ish values, for the startup loaders whose behaviour depends on
the dynamic shape of the stored document. -/
inductive JVal where
  | jnull
  | jbool (b : Bool)
  | jnum (n : Int)
  | jstr (s : Str)
  | jarr (xs : List JVal)
  | jobj (fields : List (Str × JVal))

/-- Is the document an object or an array (the shapes the loaders expect)? -/
def isObjOrArr : JVal → Bool
  | .jobj _ => true
  | .jarr _ => true
  | _ => false

/-- `normalize_products(raw)` (lines 31–38): `None` → `[]`, an object →
a one-element list, an array → itself, anything else raises `ValueError`,
which `main` does not catch (startup failure). -/
def normalize_products : Option JVal → Except String (List JVal)
  | none => .ok []
  | some (.jobj fields) => .ok [.jobj fields]
  | some (.jarr xs) => .ok xs
  | some _ => .error "product.json must contain an object or an array"

/-- `ensure_sales_list(raw)` (lines 40–47): `None` → `[]`, an array →
itself, an object → a one-element list, and any other shape silently
becomes `[]` (line 47). -/
def ensure_sales_list : Option JVal → List JVal
  | none => []
  | some (.jarr xs) => xs
  | some (.jobj fields) => [.jobj fields]
  | some _ => []

/-- The startup loads of `main` (lines 303–305): normalize the catalog
(propagating its `ValueError`) and coerce the ledger. -/
def startupLoad (praw sraw : Option JVal) : Except String (List JVal × List JVal) :=
  match normalize_products praw with
  | .error e => .error e
  | .ok ps => .ok (ps, ensure_sales_list sraw)

section ModelChecks
/-!
Concrete evaluations of the embedding, each checked against the behaviour
of the corresponding Python functions on the same inputs.
-/
example : pyStrip "  ab ".toList = "ab".toList := by decide
example : strLower "AbC".toList = "abc".toList := by decide
example : containsSub "bc".toList "abcd".toList = true := by decide
example : matchSize "abcd".toList "abcd".toList = 4 := by decide
example : ratioPair "abcd".toList "bcde".toList = (6, 8) := by decide
example : ratioPair "A".toList "a".toList = (0, 2) := by decide
example : get_close_matches1 "applw".toList ["apple".toList, "ape".toList] (3, 5)
    = some "apple".toList := by decide

-- model sanity checks against hand-executed Python behaviour
def wProd : Product := ⟨"Widget".toList, 10, 5⟩
def envA : SellEnv := ⟨"INV-1".toList, "2025-01-01".toList⟩
def sessW : Sess := mainInit (some (.multiple [wProd])) (some [])

example : sessW.selected = some 0 := by decide
example : (mainInit (some (.multiple [wProd, wProd])) none).selected = none := by decide
-- bare "10" with a one-product catalog: the auto-selected product is sold;
-- 10 > stock 5, so the reply is the insufficient-stock message
example : (parse_and_handle sessW "10".toList [] envA).2 = .notEnoughStock 5 := by decide
example : (parse_and_handle sessW "10".toList [] envA).1 = sessW := by decide
-- bare "3": sells 3 Widgets at 10 each
example : (parse_and_handle sessW "3".toList [] envA).1.catalog
    = [⟨"Widget".toList, 10, 2⟩] := by decide
example : (parse_and_handle sessW "3".toList [] envA).1.fileSales
    = [⟨"INV-1".toList, "Widget".toList, 3, 10, 30, "CASH".toList, "2025-01-01".toList⟩] := by
  decide
-- a sell from a single-object catalog writes back a list (line 222 passes
-- products_list, so record_sale's dict branch is dead)
example : (parse_and_handle (mainInit (some (.single wProd)) (some []))
    "sell 2 Widget".toList "upi ".toList envA).1.fileCat
    = .multiple [⟨"Widget".toList, 10, 3⟩] := by decide
example : (parse_and_handle (mainInit (some (.single wProd)) (some []))
    "sell 2 Widget".toList "upi ".toList envA).1.fileSales
    = [⟨"INV-1".toList, "Widget".toList, 2, 10, 20, "UPI".toList, "2025-01-01".toList⟩] := by
  decide
-- sell regex corner: "sell   12" parses with an empty (stripped) name
example : sellRegex2 "sell   12".toList = some ([' '], "12".toList) := by decide
example : sellRegex1 "sell 2 Widget".toList = some ("2".toList, "Widget".toList) := by decide
example : sellRegex2 "sell Widget 2".toList = some ("Widget".toList, "2".toList) := by decide
example : sellRegex1 "sell 12x".toList = none := by decide
example : sellRegex2 "sell  12".toList = none := by decide
example : sellRegex2 "SELL a  14 7".toList = some ("a  14".toList, "7".toList) := by decide
example : salesForGroup "sales  FOR  x y".toList = some "x y".toList := by decide
-- ratio tie: nlargest compares (ratio, string) tuples, larger string wins
example : get_close_matches1 "abcd".toList ["abxx".toList, "xxcd".toList] (2, 5)
    = some "xxcd".toList := by decide
-- sales listing: "sales for b" filters, "show sales for b" does not
def sA : Sale := ⟨"I1".toList, "Alpha".toList, 1, 1, 1, "CASH".toList, "d".toList⟩
def sB : Sale := ⟨"I2".toList, "Beta".toList, 1, 1, 1, "CASH".toList, "d".toList⟩
def sessS : Sess := { catalog := [], fileCat := .multiple [], fileSales := [sA, sB],
                      lastSales := [sA, sB], selected := none }
example : (parse_and_handle sessS "sales for Beta".toList [] envA).2
    = .salesListed [sB] := by decide
example : (parse_and_handle sessS "show sales for Beta".toList [] envA).2
    = .salesListed [sB, sA] := by decide
example : (parse_and_handle sessS "sales".toList [] envA).2
    = .salesListed [sB, sA] := by decide
example : (parse_and_handle sessS "last sale".toList [] envA).2
    = .salesListed [sB] := by decide
-- matcher tiers
example : find_product_by_name [wProd] " WIDGET ".toList = some wProd := by decide
example : find_product_by_name [wProd] "idge".toList = some wProd := by decide
example : find_product_by_name [wProd] "Widgte".toList = some wProd := by decide
example : find_product_by_name [wProd] "zzz".toList = none := by decide
example : find_product_by_name [wProd] "   ".toList = none := by decide
end ModelChecks

/-! ## Helper lemmas -/

theorem findIdxA_eq_none {α : Type} (p : α → Bool) (l : List α)
    (h : ∀ x ∈ l, p x = false) : findIdxA p l = none := by
  induction l with
  | nil => rfl
  | cons a l ih =>
    simp only [findIdxA, h a (List.mem_cons_self a l), if_false, Bool.false_eq_true]
    rw [ih (fun x hx => h x (List.mem_cons_of_mem a hx))]
    rfl

theorem findIdxA_eq_some {α : Type} (p : α → Bool) (l : List α) (i : Nat) (x : α)
    (hx : l[i]? = some x) (hpx : p x = true)
    (hmin : ∀ j y, j < i → l[j]? = some y → p y = false) :
    findIdxA p l = some i := by
  induction l generalizing i with
  | nil => simp at hx
  | cons a l ih =>
    cases i with
    | zero =>
      simp only [List.getElem?_cons_zero, Option.some.injEq] at hx
      subst hx
      simp [findIdxA, hpx]
    | succ i =>
      have ha : p a = false := hmin 0 a (Nat.succ_pos i) (by simp)
      simp only [findIdxA, ha, Bool.false_eq_true, if_false]
      rw [ih i (by simpa using hx)
        (fun j y hj hy => hmin (j + 1) y (Nat.succ_lt_succ hj) (by simpa using hy))]
      rfl

theorem takeWhile_of_all {α : Type} (p : α → Bool) (l : List α)
    (h : ∀ x ∈ l, p x = true) : l.takeWhile p = l := by
  induction l with
  | nil => rfl
  | cons a l ih =>
    rw [List.takeWhile_cons, h a (List.mem_cons_self a l)]
    simp [ih (fun x hx => h x (List.mem_cons_of_mem a hx))]

theorem dropWhile_head_false {α : Type} (p : α → Bool) (l : List α) (c : α)
    (hh : l.head? = some c) (hc : p c = false) : l.dropWhile p = l := by
  cases l with
  | nil => simp at hh
  | cons a l =>
    simp only [List.head?_cons, Option.some.injEq] at hh
    subst hh
    rw [List.dropWhile_cons, hc]
    simp

theorem isPrefixOf_ex {l v : Str} (h : l.isPrefixOf v = true) : ∃ t, v = l ++ t := by
  induction l generalizing v with
  | nil => exact ⟨v, rfl⟩
  | cons a as ih =>
    cases v with
    | nil => simp [List.isPrefixOf] at h
    | cons b bs =>
      simp only [List.isPrefixOf, Bool.and_eq_true, beq_iff_eq] at h
      obtain ⟨t, ht⟩ := ih h.2
      exact ⟨t, by rw [h.1, List.cons_append, ht]⟩

theorem ne_of_getElem? {l₁ l₂ : Str} (i : Nat) (h : l₁[i]? ≠ l₂[i]?) : l₁ ≠ l₂ :=
  fun he => h (he ▸ rfl)

/-- `lowerChar` fixes every non-uppercase-letter character, in particular
digits. -/
theorem lowerChar_of_digit {c : Char} (h : isDigitChar c = true) : lowerChar c = c := by
  simp only [isDigitChar, decide_eq_true_eq] at h
  unfold lowerChar
  rw [if_neg]
  omega

theorem strLower_of_digits {v : Str} (h : v.all isDigitChar = true) : strLower v = v := by
  unfold strLower
  induction v with
  | nil => rfl
  | cons a l ih =>
    simp only [List.all_cons, Bool.and_eq_true] at h
    simp [lowerChar_of_digit h.1, ih h.2]

theorem digits_ne_lit {v l : Str} (c : Char) (hc : isDigitChar c = false) (hm : c ∈ l)
    (hv : v.all isDigitChar = true) : v ≠ l := by
  intro h
  subst h
  rw [List.all_eq_true] at hv
  rw [hv c hm] at hc
  exact absurd hc (by simp)

theorem digits_no_lit_prefix {v l : Str} (c : Char) (hc : isDigitChar c = false)
    (hl : l.head? = some c) (hv : v.all isDigitChar = true) :
    l.isPrefixOf v = false := by
  cases l with
  | nil => simp at hl
  | cons a as =>
    simp only [List.head?_cons, Option.some.injEq] at hl
    subst hl
    cases v with
    | nil => rfl
    | cons b bs =>
      simp only [List.all_cons, Bool.and_eq_true] at hv
      simp only [List.isPrefixOf, Bool.and_eq_false_iff, beq_eq_false_iff_ne, ne_eq]
      left
      intro h
      rw [h, hv.1] at hc
      exact absurd hc (by simp)

theorem ratioPair_den_pos (a b : Str) : 0 < (ratioPair a b).2 := by
  unfold ratioPair
  split
  · exact Nat.one_pos
  · next h => simpa using Nat.pos_of_ne_zero h

/-- Bridge from the rational similarity statement to the fraction
comparison computed inside `get_close_matches1`. -/
theorem fracLe_cutoff_false_of_lt {a b : Str} (h : pyRatio a b < 3 / 5) :
    fracLe (3, 5) (ratioPair a b) = false := by
  unfold pyRatio at h
  have hd : (0 : ℚ) < ((ratioPair a b).2 : ℚ) := by
    exact_mod_cast ratioPair_den_pos a b
  have h5 : (0 : ℚ) < 5 := by norm_num
  rw [div_lt_div_iff₀ hd h5] at h
  have hn : (ratioPair a b).1 * 5 < 3 * (ratioPair a b).2 := by exact_mod_cast h
  simp only [fracLe, decide_eq_false_iff_not]
  omega

/-- Bridge in the other direction, to evaluate rational similarity facts
on concrete strings. -/
theorem pyRatio_lt_cutoff_of_pair (a b : Str) (n d : Nat) (hp : ratioPair a b = (n, d))
    (h : 5 * n < 3 * d) : pyRatio a b < 3 / 5 := by
  have hd : 0 < d := by
    have := ratioPair_den_pos a b
    rw [hp] at this
    exact this
  unfold pyRatio
  rw [hp]
  have hdq : (0 : ℚ) < (d : ℚ) := by exact_mod_cast hd
  rw [div_lt_div_iff₀ hdq (by norm_num : (0:ℚ) < 5)]
  exact_mod_cast by omega

/-! ## C1: successful sells — total, stock decrement, ledger growth -/

/-- C1.  For every successful sell of quantity `q` of a product with unit
price `u`, the created record's `total` is `u * q` and its fields snapshot
the product; the product's stock after the sale is its stock before minus
`q`; and the persisted sales ledger grows by exactly one entry. -/
theorem recordSale_success_totals (catalog : List Product) (i : Nat) (qty : Int)
    (pm : Str) (argIsSingle : Bool) (fileSales : List Sale) (env : SellEnv)
    (r : Reply) (res : SellResult)
    (h : record_sale catalog i qty pm argIsSingle fileSales env = (r, some res)) :
    res.sale.total = res.sale.unit_price * res.sale.quantity ∧
    res.sale.quantity = qty ∧
    res.sale.unit_price = ((catalog[i]?).getD dfltP).price ∧
    ((res.catalog[i]?).getD dfltP).stock = ((catalog[i]?).getD dfltP).stock - qty ∧
    res.fileSales.length = fileSales.length + 1 ∧
    r = .saleRecorded res.sale := by
  by_cases hq : qty ≤ 0
  · simp only [record_sale] at h
    rw [if_pos hq] at h
    simp at h
  by_cases hs : ((catalog[i]?).getD dfltP).stock < qty
  · simp only [record_sale] at h
    rw [if_neg hq, if_pos hs] at h
    simp at h
  have hlt : i < catalog.length := by
    by_contra hge
    have hnone : catalog[i]? = none := List.getElem?_eq_none (by omega)
    rw [hnone] at hs
    simp only [Option.getD_none] at hs
    have : dfltP.stock = 0 := rfl
    omega
  simp only [record_sale] at h
  rw [if_neg hq, if_neg hs] at h
  have h1 := congrArg Prod.fst h
  have h2 := congrArg Prod.snd h
  simp only at h1 h2
  obtain rfl := Option.some.inj h2
  refine ⟨rfl, rfl, rfl, ?_, by simp, h1.symm⟩
  rw [List.getElem?_set_eq_of_lt _ hlt]
  rfl

/-- Witness for C1: selling 2 Widgets at unit price 10 from stock 5. -/
def invW : Sale :=
  ⟨"INV-1".toList, "Widget".toList, 2, 10, 20, "CASH".toList, "2025-01-01".toList⟩

/-- The state produced by the C1 witness sale. -/
def resW : SellResult :=
  ⟨[⟨"Widget".toList, 10, 3⟩], .multiple [⟨"Widget".toList, 10, 3⟩], [invW], invW⟩

/-- Witness for `recordSale_success_totals` at a concrete sale. -/
theorem recordSale_success_totals_witness :
    resW.sale.total = resW.sale.unit_price * resW.sale.quantity ∧
    resW.sale.quantity = 2 ∧
    resW.sale.unit_price = ((([wProd] : List Product)[0]?).getD dfltP).price ∧
    ((resW.catalog[0]?).getD dfltP).stock = ((([wProd] : List Product)[0]?).getD dfltP).stock - 2 ∧
    resW.fileSales.length = ([] : List Sale).length + 1 ∧
    Reply.saleRecorded invW = .saleRecorded resW.sale :=
  recordSale_success_totals [wProd] 0 2 "CASH".toList false [] envA
    (.saleRecorded invW) resW (by decide)

/-! ## C2: invalid sells change nothing -/

/-- C2.  A sell whose quantity is non-positive, or exceeds the product's
current stock, reports the corresponding error (invalid-quantity checked
first, then insufficient-stock) and leaves the whole session — catalog,
in-memory ledger, and both persisted files — exactly as it was. -/
theorem invalidSell_noStateChange (s : Sess) (i : Nat) (qty : Int) (pmRaw : Str)
    (env : SellEnv)
    (h : qty ≤ 0 ∨ ((s.catalog[i]?).getD dfltP).stock < qty) :
    (doSell s i qty pmRaw env).1 = s ∧
    (doSell s i qty pmRaw env).2 =
      (if qty ≤ 0 then Reply.qtyMustBePositive
       else Reply.notEnoughStock ((s.catalog[i]?).getD dfltP).stock) := by
  by_cases hq : qty ≤ 0
  · simp [doSell, record_sale, hq]
  · have hs : ((s.catalog[i]?).getD dfltP).stock < qty := h.resolve_left hq
    simp [doSell, record_sale, hq, hs]

/-- Witness for `invalidSell_noStateChange`: quantity 0, and quantity 10
against stock 5. -/
theorem invalidSell_noStateChange_witness :
    ((doSell sessW 0 0 [] envA).1 = sessW ∧
      (doSell sessW 0 0 [] envA).2 =
        (if (0 : Int) ≤ 0 then Reply.qtyMustBePositive
         else Reply.notEnoughStock ((sessW.catalog[0]?).getD dfltP).stock)) ∧
    ((doSell sessW 0 10 [] envA).1 = sessW ∧
      (doSell sessW 0 10 [] envA).2 =
        (if (10 : Int) ≤ 0 then Reply.qtyMustBePositive
         else Reply.notEnoughStock ((sessW.catalog[0]?).getD dfltP).stock)) :=
  ⟨invalidSell_noStateChange sessW 0 0 [] envA (Or.inl (by decide)),
   invalidSell_noStateChange sessW 0 10 [] envA (Or.inr (by decide))⟩

/-! ## C10: startup selection of a singleton catalog -/

/-- C10.  At startup the selected product is the unique catalog entry when
the catalog has exactly one product, and nothing otherwise (line 310). -/
theorem mainInit_selection (praw : Option CatShape) (sraw : Option (List Sale)) :
    (∀ p : Product, (mainInit praw sraw).catalog = [p] →
        (mainInit praw sraw).selected = some 0 ∧
        (mainInit praw sraw).catalog[0]? = some p) ∧
    ((mainInit praw sraw).catalog.length ≠ 1 → (mainInit praw sraw).selected = none) := by
  have hsel : (mainInit praw sraw).selected =
      (if (mainInit praw sraw).catalog.length = 1 then some 0 else none) := by
    simp [mainInit]
  constructor
  · intro p hp
    rw [hsel, hp]
    simp
  · intro hne
    rw [hsel, if_neg hne]

/-- Witness for `mainInit_selection`: a one-product and a two-product
catalog. -/
theorem mainInit_selection_witness :
    (mainInit (some (.multiple [wProd])) (some [])).selected = some 0 ∧
    (mainInit (some (.multiple [wProd, wProd])) none).selected = none :=
  ⟨((mainInit_selection (some (.multiple [wProd])) (some [])).1 wProd rfl).1,
   (mainInit_selection (some (.multiple [wProd, wProd])) none).2 (by decide)⟩

/-! ## C3: the write-back does not preserve a single-object catalog -/

/-- C3 (code bug).  Starting from a `product.json` holding a single
product object, a successful sell writes the catalog back as a one-element
list: `record_sale`'s own single-object branch (lines 136–139, documented
by its comment) is defeated because `parse_and_handle` (line 222) passes
`products_list` instead of the raw dict whenever the raw catalog is not a
list.  The claimed shape-preserving write therefore fails on this input. -/
theorem singleCatalog_sell_writes_list :
    (mainInit (some (.single wProd)) (some [])).fileCat = .single wProd ∧
    (parse_and_handle (mainInit (some (.single wProd)) (some []))
        "sell 2 Widget".toList [] envA).1.fileCat
      = .multiple [⟨"Widget".toList, 10, 3⟩] ∧
    (∀ p : Product,
      (parse_and_handle (mainInit (some (.single wProd)) (some []))
          "sell 2 Widget".toList [] envA).1.fileCat ≠ .single p) := by
  refine ⟨by decide, by decide, ?_⟩
  intro p
  rw [(by decide : (parse_and_handle (mainInit (some (.single wProd)) (some []))
      "sell 2 Widget".toList [] envA).1.fileCat
        = .multiple [⟨"Widget".toList, 10, 3⟩])]
  intro h
  exact absurd h (by simp)

/-! ## C6: malformed storage at startup -/

/-- C6 (counterexample).  A present but malformed ledger record (here a
string) does not fail startup: `ensure_sales_list` (line 47) silently
coerces it to the empty ledger, so `main` starts with no error. -/
theorem malformedLedger_startup_ok :
    isObjOrArr (.jstr "oops".toList) = false ∧
    startupLoad (some (.jarr [])) (some (.jstr "oops".toList)) = .ok ([], []) :=
  ⟨rfl, rfl⟩

/-- C6 (amended).  A malformed catalog record does surface a startup
error (`normalize_products` raises `ValueError`, uncaught in `main`), but
a malformed ledger record is silently coerced to the empty ledger. -/
theorem malformedShape_loaders (v : JVal) (h : isObjOrArr v = false) :
    normalize_products (some v) = .error "product.json must contain an object or an array" ∧
    ensure_sales_list (some v) = [] := by
  cases v <;> simp_all [isObjOrArr, normalize_products, ensure_sales_list]

/-- Witness for `malformedShape_loaders` at a numeric document. -/
theorem malformedShape_loaders_witness :
    normalize_products (some (.jnum 5))
      = .error "product.json must contain an object or an array" ∧
    ensure_sales_list (some (.jnum 5)) = [] :=
  malformedShape_loaders (.jnum 5) rfl

/-! ## C4: the exact-match tier -/

/-- C4 (counterexample).  With two products whose names differ only in
case, a query exactly equal (after trimming, case-insensitively) to the
second product's name returns the *first* product, not the second: the
exact tier takes the first case-insensitive match in catalog order, so the
result is not independent of the ordering. -/
theorem exactMatch_cex :
    (⟨"WIDGET".toList, 2, 2⟩ : Product) ∈
      [(⟨"widget".toList, 1, 1⟩ : Product), ⟨"WIDGET".toList, 2, 2⟩] ∧
    strLower (pyStrip "WIDGET".toList) =
      strLower (⟨"WIDGET".toList, 2, 2⟩ : Product).name ∧
    find_product_by_name [⟨"widget".toList, 1, 1⟩, ⟨"WIDGET".toList, 2, 2⟩]
        "WIDGET".toList ≠ some ⟨"WIDGET".toList, 2, 2⟩ ∧
    find_product_by_name [⟨"widget".toList, 1, 1⟩, ⟨"WIDGET".toList, 2, 2⟩]
        "WIDGET".toList = some ⟨"widget".toList, 1, 1⟩ := by
  refine ⟨by decide, by decide, ?_, by decide⟩
  rw [(by decide : find_product_by_name [⟨"widget".toList, 1, 1⟩, ⟨"WIDGET".toList, 2, 2⟩]
      "WIDGET".toList = some ⟨"widget".toList, 1, 1⟩)]
  intro h
  exact absurd (Option.some.inj h) (by decide)

/-- C4 (amended).  If the trimmed query is nonempty and equals product
`P`'s trimmed name case-insensitively, and no earlier catalog entry's
trimmed name equals the trimmed query case-insensitively, then the matcher
returns `P`: the exact tier is decided before the substring and fuzzy
tiers ever run, and it short-circuits on the first match in catalog
order.  (Catalog order is irrelevant exactly when no other product shares
the name; an empty trimmed query instead returns `none` at line 56.) -/
theorem exactMatch_returnsFirst (products : List Product) (q : Str) (i : Nat)
    (P : Product)
    (hi : products[i]? = some P)
    (hq : strLower (pyStrip P.name) = strLower (pyStrip q))
    (hne : pyStrip q ≠ [])
    (hfirst : ∀ j Q, j < i → products[j]? = some Q →
        strLower (pyStrip Q.name) ≠ strLower (pyStrip q)) :
    find_product_by_name products q = some P := by
  have hidx : findIdxA
      (fun p => decide (strLower (pyStrip p.name) = strLower (pyStrip q))) products
      = some i :=
    findIdxA_eq_some _ _ i P hi (by simp [hq])
      (fun j y hj hy => by simp [hfirst j y hj hy])
  unfold find_product_by_name find_product_idx
  rw [if_neg hne, hidx]
  exact hi

/-- Witness for `exactMatch_returnsFirst`: a query differing from the
stored name in case and surrounding whitespace. -/
theorem exactMatch_returnsFirst_witness :
    find_product_by_name [⟨" WIDGET ".toList, 7, 9⟩] "  widget".toList
      = some ⟨" WIDGET ".toList, 7, 9⟩ :=
  exactMatch_returnsFirst [⟨" WIDGET ".toList, 7, 9⟩] "  widget".toList 0
    ⟨" WIDGET ".toList, 7, 9⟩ rfl (by decide) (by decide)
    (fun j Q hj _ => absurd hj (Nat.not_lt_zero j))

/-! ## C5: the similarity cutoff -/

/-- C5 (counterexample).  A query whose similarity to every product name
is below the cutoff can still match: `"a"` has ratio 0 to the name `"A"`
(the fuzzy tier compares raw names case-sensitively), yet the exact tier
matches it case-insensitively, so the matcher does not return `none`. -/
theorem belowCutoff_cex :
    (∀ P ∈ [(⟨"A".toList, 5, 5⟩ : Product)], pyRatio P.name "a".toList < 3 / 5) ∧
    find_product_by_name [⟨"A".toList, 5, 5⟩] "a".toList = some ⟨"A".toList, 5, 5⟩ := by
  constructor
  · intro P hP
    rw [List.mem_singleton] at hP
    subst hP
    exact pyRatio_lt_cutoff_of_pair _ _ 0 2 (by decide) (by decide)
  · decide

/-- C5 (amended).  If the (stripped) query matches no product at the
exact tier nor at the substring tier, and its similarity to every raw
product name is below the cutoff `0.6`, then the matcher returns `none`. -/
theorem belowCutoff_noMatch (products : List Product) (q : Str)
    (hex : ∀ P ∈ products, strLower (pyStrip P.name) ≠ strLower (pyStrip q))
    (hsub : ∀ P ∈ products,
        containsSub (strLower (pyStrip q)) (strLower (pyStrip P.name)) = false)
    (hfuzz : ∀ P ∈ products, pyRatio P.name (pyStrip q) < 3 / 5) :
    find_product_by_name products q = none := by
  unfold find_product_by_name find_product_idx
  by_cases h0 : pyStrip q = []
  · rw [if_pos h0]
  · rw [if_neg h0]
    have h1 : findIdxA
        (fun p => decide (strLower (pyStrip p.name) = strLower (pyStrip q))) products
        = none :=
      findIdxA_eq_none _ _ (fun x hx => by simp [hex x hx])
    have h2 : findIdxA
        (fun p => containsSub (strLower (pyStrip q)) (strLower (pyStrip p.name)))
        products = none :=
      findIdxA_eq_none _ _ (fun x hx => hsub x hx)
    have h3 : get_close_matches1 (pyStrip q) (products.map (fun p => p.name)) (3, 5)
        = none := by
      unfold get_close_matches1
      have hfil : (products.map (fun p => p.name)).filter
          (fun x => fracLe (3, 5) (ratioPair x (pyStrip q))) = [] := by
        rw [List.filter_eq_nil_iff]
        intro x hx
        obtain ⟨P, hP, rfl⟩ := List.mem_map.1 hx
        simp [fracLe_cutoff_false_of_lt (hfuzz P hP)]
      rw [hfil]
      rfl
    rw [h1, h2, h3]

/-- Witness for `belowCutoff_noMatch`: the query `"zzz"` against the
catalog `[Widget]`. -/
theorem belowCutoff_noMatch_witness :
    find_product_by_name [wProd] "zzz".toList = none :=
  belowCutoff_noMatch [wProd] "zzz".toList
    (by decide) (by decide)
    (fun P hP => by
      rw [List.mem_singleton] at hP
      subst hP
      exact pyRatio_lt_cutoff_of_pair _ _ 0 9 (by decide) (by decide))

/-! ## C9: stocks never go negative -/

/-- Every product in the list has non-negative stock. -/
def stocksNonneg (ps : List Product) : Prop := ∀ p ∈ ps, 0 ≤ p.stock

theorem doSell_stocksNonneg (s : Sess) (i : Nat) (qty : Int) (pmRaw : Str)
    (env : SellEnv) (h : stocksNonneg s.catalog) :
    stocksNonneg (doSell s i qty pmRaw env).1.catalog := by
  by_cases hq : qty ≤ 0
  · simpa [doSell, record_sale, hq] using h
  by_cases hs : ((s.catalog[i]?).getD dfltP).stock < qty
  · simpa [doSell, record_sale, hq, hs] using h
  simp only [doSell, record_sale]
  rw [if_neg hq, if_neg hs]
  intro p hp
  rcases List.mem_or_eq_of_mem_set hp with hmem | rfl
  · exact h p hmem
  · simp only
    omega

theorem handleFallback_catalog (s : Sess) (u : Str) :
    (handleFallback s u).1.catalog = s.catalog := by
  unfold handleFallback
  split
  · rfl
  · split <;> rfl

theorem handleBareQty_stocksNonneg (s : Sess) (u pmRaw : Str) (env : SellEnv)
    (h : stocksNonneg s.catalog) :
    stocksNonneg (handleBareQty s u pmRaw env).1.catalog := by
  unfold handleBareQty
  split
  · split
    · exact h
    · exact doSell_stocksNonneg _ _ _ _ _ h
  · rw [handleFallback_catalog]
    exact h

theorem sellNamed_stocksNonneg (s : Sess) (qty : Int) (name pmRaw : Str)
    (env : SellEnv) (h : stocksNonneg s.catalog) :
    stocksNonneg (sellNamed s qty name pmRaw env).1.catalog := by
  unfold sellNamed
  split
  · exact h
  · exact doSell_stocksNonneg _ _ _ _ _ h

theorem handleQtyName_stocksNonneg (s : Sess) (u pmRaw : Str) (env : SellEnv)
    (h : stocksNonneg s.catalog) :
    stocksNonneg (handleQtyName s u pmRaw env).1.catalog := by
  unfold handleQtyName
  split
  · split
    · exact doSell_stocksNonneg _ _ _ _ _ h
    · split <;> exact h
  · exact handleBareQty_stocksNonneg _ _ _ _ h

theorem handleSell_stocksNonneg (s : Sess) (u pmRaw : Str) (env : SellEnv)
    (h : stocksNonneg s.catalog) :
    stocksNonneg (handleSell s u pmRaw env).1.catalog := by
  unfold handleSell
  split
  · split
    · exact sellNamed_stocksNonneg _ _ _ _ _ h
    · split
      · exact sellNamed_stocksNonneg _ _ _ _ _ h
      · exact h
  · exact handleQtyName_stocksNonneg _ _ _ _ h

theorem parse_stocksNonneg (s : Sess) (user pmRaw : Str) (env : SellEnv)
    (h : stocksNonneg s.catalog) :
    stocksNonneg (parse_and_handle s user pmRaw env).1.catalog := by
  simp only [parse_and_handle]
  repeat' split
  all_goals first
    | exact h
    | exact handleSell_stocksNonneg _ _ _ _ h

/-- C9.  In any session starting with all stocks non-negative, every
product's stock stays non-negative after any sequence of interpreted
input lines: the only catalog mutation is a validated sale, which cannot
take a stock below zero. -/
theorem session_stocks_nonneg (s : Sess) (inputs : List (Str × Str × SellEnv))
    (h : stocksNonneg s.catalog) : stocksNonneg (runSession s inputs).catalog := by
  induction inputs generalizing s with
  | nil => exact h
  | cons a l ih => exact ih _ (parse_stocksNonneg _ _ _ _ h)

/-- Witness for `session_stocks_nonneg`: a session that sells 3 of the 5
Widgets and then fails an over-large sale. -/
theorem session_stocks_nonneg_witness :
    stocksNonneg (runSession sessW
      [("3".toList, ([] : Str), envA), ("99".toList, ([] : Str), envA)]).catalog :=
  session_stocks_nonneg sessW
    [("3".toList, ([] : Str), envA), ("99".toList, ([] : Str), envA)]
    (by unfold stocksNonneg; decide)

/-! ## C7: a bare integer as the first input -/

theorem sellRegex1_none_of_digits (v : Str) (hdig : v.all isDigitChar = true) :
    sellRegex1 v = none := by
  unfold sellRegex1
  rw [strLower_of_digits hdig,
    digits_no_lit_prefix 's' (by decide) (by decide) hdig]
  rfl

theorem sellRegex2_none_of_digits (v : Str) (hdig : v.all isDigitChar = true) :
    sellRegex2 v = none := by
  unfold sellRegex2
  rw [strLower_of_digits hdig,
    digits_no_lit_prefix 's' (by decide) (by decide) hdig]
  rfl

theorem qtyNameGroups_none_of_digits (v : Str) (hne : v ≠ [])
    (hdig : v.all isDigitChar = true) : qtyNameGroups v = none := by
  unfold qtyNameGroups
  have hds : v.takeWhile isDigitChar = v :=
    takeWhile_of_all _ _ (List.all_eq_true.1 hdig)
  rw [hds, if_neg hne, List.drop_length v]
  simp

/-- Dispatch of an all-digit input line: every earlier pattern misses, so
it reaches the bare-integer rule (lines 250–261) and either reports that
no product is selected or sells the quantity of the selected product. -/
theorem bare_digits_dispatch (s : Sess) (u pmRaw : Str) (env : SellEnv)
    (hne : pyStrip u ≠ []) (hdig : (pyStrip u).all isDigitChar = true) :
    parse_and_handle s u pmRaw env =
      (match s.selected with
       | none => (s, Reply.noProductSelected)
       | some i => doSell s i (intOfDigits (pyStrip u)) pmRaw env) := by
  have hv : strLower (pyStrip u) = pyStrip u := strLower_of_digits hdig
  have pfx : ∀ (l : Str) (c : Char), isDigitChar c = false → l.head? = some c →
      l.isPrefixOf (pyStrip u) = false :=
    fun l c hc hl => digits_no_lit_prefix c hc hl hdig
  simp only [parse_and_handle]
  rw [if_neg hne, hv]
  rw [if_neg (by
    rintro (h | h)
    · exact absurd h (digits_ne_lit 'h' (by decide) (by decide) hdig)
    · exact absurd h (digits_ne_lit '?' (by decide) (by decide) hdig))]
  rw [if_neg (by
    rintro (h | h)
    · exact absurd h (digits_ne_lit 'e' (by decide) (by decide) hdig)
    · exact absurd h (digits_ne_lit 'q' (by decide) (by decide) hdig))]
  rw [if_neg (by
    rintro (h | h | h)
    · exact absurd h (digits_ne_lit 'w' (by decide) (by decide) hdig)
    · exact absurd h (digits_ne_lit 'l' (by decide) (by decide) hdig)
    · exact absurd h (digits_ne_lit 'p' (by decide) (by decide) hdig))]
  rw [if_neg (by
    rw [pfx "show sales".toList 's' (by decide) (by decide),
      pfx "sales".toList 's' (by decide) (by decide)]
    simp)]
  rw [if_neg (by
    rintro (h | h)
    · exact absurd h (digits_ne_lit 'w' (by decide) (by decide) hdig)
    · exact absurd h (digits_ne_lit 'l' (by decide) (by decide) hdig))]
  rw [if_neg (by
    rw [pfx "show ".toList 's' (by decide) (by decide),
      pfx "price of ".toList 'p' (by decide) (by decide),
      pfx "how many ".toList 'h' (by decide) (by decide)]
    simp)]
  unfold handleSell
  rw [sellRegex1_none_of_digits _ hdig, sellRegex2_none_of_digits _ hdig]
  unfold handleQtyName
  rw [qtyNameGroups_none_of_digits _ hne hdig]
  unfold handleBareQty
  have hd : isDigits (pyStrip u) = true := by
    unfold isDigits
    rw [hdig]
    simp [hne]
  simp only [hd, if_true]

/-- C7 (counterexample).  With the claimed catalog
`[{"name":"Widget","price":10,"stock":5}]` the startup auto-selects the
single product, so the very first input `"10"` does *not* report that no
product is selected: it prompts for a payment method and attempts the
sale, which fails with the insufficient-stock message; and the first input
`"3"` actually sells (state changes).  The claimed "no product selected"
report never appears. -/
theorem bareInt_firstInput_cex :
    (parse_and_handle sessW "10".toList [] envA).2 = Reply.notEnoughStock 5 ∧
    (parse_and_handle sessW "10".toList [] envA).2 ≠ Reply.noProductSelected ∧
    (parse_and_handle sessW "3".toList [] envA).1.catalog
      = [⟨"Widget".toList, 10, 2⟩] ∧
    (parse_and_handle sessW "3".toList [] envA).1 ≠ sessW := by
  refine ⟨by decide, ?_, by decide, ?_⟩
  · rw [(by decide : (parse_and_handle sessW "10".toList [] envA).2
        = Reply.notEnoughStock 5)]
    intro h
    exact absurd h (by decide)
  · rw [(by decide : (parse_and_handle sessW "3".toList [] envA).1
        = { catalog := [⟨"Widget".toList, 10, 2⟩],
            fileCat := .multiple [⟨"Widget".toList, 10, 2⟩],
            fileSales := [⟨"INV-1".toList, "Widget".toList, 3, 10, 30, "CASH".toList,
              "2025-01-01".toList⟩],
            lastSales := [⟨"INV-1".toList, "Widget".toList, 3, 10, 30, "CASH".toList,
              "2025-01-01".toList⟩],
            selected := some 0 })]
    intro h
    exact absurd h (by decide)

/-- C7 (amended).  In a session started with a catalog of exactly one
product, a first all-digit input line is dispatched as a sale of that
quantity of the auto-selected single product (never a "no product
selected" report); the "no product selected" report with unchanged state
occurs exactly when no product is selected — that is, when the catalog
does not have exactly one product and no prior line selected one. -/
theorem bareInt_firstInput (p : Product) (sraw : Option (List Sale))
    (u pmRaw : Str) (env : SellEnv)
    (hne : pyStrip u ≠ []) (hdig : (pyStrip u).all isDigitChar = true) :
    parse_and_handle (mainInit (some (.multiple [p])) sraw) u pmRaw env
      = doSell (mainInit (some (.multiple [p])) sraw) 0 (intOfDigits (pyStrip u))
          pmRaw env ∧
    (∀ s : Sess, s.selected = none →
      parse_and_handle s u pmRaw env = (s, Reply.noProductSelected)) := by
  constructor
  · rw [bare_digits_dispatch _ _ _ _ hne hdig]
    have : (mainInit (some (.multiple [p])) sraw).selected = some 0 := rfl
    rw [this]
  · intro s hs
    rw [bare_digits_dispatch _ _ _ _ hne hdig, hs]

/-- Witness for `bareInt_firstInput` at the claimed scenario input
`"10"`. -/
theorem bareInt_firstInput_witness :
    parse_and_handle (mainInit (some (.multiple [wProd])) (some [])) "10".toList
        [] envA
      = doSell (mainInit (some (.multiple [wProd])) (some [])) 0
          (intOfDigits (pyStrip "10".toList)) [] envA ∧
    (∀ s : Sess, s.selected = none →
      parse_and_handle s "10".toList [] envA = (s, Reply.noProductSelected)) :=
  bareInt_firstInput wProd (some []) "10".toList [] envA (by decide) (by decide)

/-! ## C8: listing and filtering sales -/

/-- C8 (counterexample).  After sales of two different products, the line
`"show sales for Beta"` — a `show sales` variant with a `for <name>`
suffix — lists *all* entries (most recent first) instead of only those
whose `product_name` contains `"Beta"`: the dispatch at line 179 accepts
the line, but the regex at line 181 is anchored at `sales`, does not match
a line starting with `show sales`, and so no filter is applied. -/
theorem salesFilter_cex :
    (([sA, sB].filter
        (fun e => containsSub (strLower "Beta".toList) (strLower e.product_name))).reverse
      = [sB]) ∧
    (parse_and_handle sessS "show sales for Beta".toList [] envA).2
      ≠ Reply.salesListed [sB] ∧
    (parse_and_handle sessS "show sales for Beta".toList [] envA).2
      = Reply.salesListed [sB, sA] := by
  refine ⟨by decide, ?_, by decide⟩
  rw [(by decide : (parse_and_handle sessS "show sales for Beta".toList [] envA).2
      = Reply.salesListed [sB, sA])]
  intro h
  exact absurd h (by decide)

/-- C8 (amended), part of the proof: the group captured on a
`"sales for <name>"` line. -/
theorem salesForGroup_salesFor (name : Str) (c : Char)
    (hhead : name.head? = some c) (hc : isSpaceChar c = false) :
    salesForGroup ("sales for ".toList ++ name) = some name := by
  have hnil : name ≠ [] := by
    cases name
    · simp at hhead
    · simp
  have hlow : strLower ("sales for ".toList ++ name)
      = "sales for ".toList ++ strLower name := by
    unfold strLower
    rw [List.map_append]
    rfl
  have hp : "sales".toList.isPrefixOf (strLower ("sales for ".toList ++ name)) = true := by
    rw [hlow, List.isPrefixOf_iff_prefix]
    exact ⟨" for ".toList ++ strLower name, rfl⟩
  simp only [salesForGroup]
  rw [if_pos hp]
  have e1 : ("sales for ".toList ++ name).drop 5 = " for ".toList ++ name := rfl
  rw [e1]
  have e2 : (" for ".toList ++ name).dropWhile isSpaceChar = "for ".toList ++ name := rfl
  rw [e2]
  have hfor : "for".toList.isPrefixOf (strLower ("for ".toList ++ name)) = true := by
    have : strLower ("for ".toList ++ name) = "for ".toList ++ strLower name := by
      unfold strLower
      rw [List.map_append]
      rfl
    rw [this, List.isPrefixOf_iff_prefix]
    exact ⟨" ".toList ++ strLower name, rfl⟩
  rw [if_pos ⟨by simp [List.length_append], hfor⟩]
  have e3 : ("for ".toList ++ name).drop 3 = ' ' :: name := rfl
  rw [e3]
  have e4 : (' ' :: name).dropWhile isSpaceChar = name := by
    rw [List.dropWhile_cons]
    simp only [(by decide : isSpaceChar ' ' = true), if_true]
    exact dropWhile_head_false _ _ c hhead hc
  rw [e4]
  rw [if_pos ⟨by simp, hnil⟩]

/-- C8 (amended).  A line of the form `sales for <name>` lists exactly the
ledger entries whose `product_name` contains `<name>` case-insensitively,
most recent first; but a line beginning with `show sales` always lists all
entries most recent first, ignoring any `for <name>` suffix (the filter is
applied only when the line itself begins with `sales`).  Bare `sales` /
`show sales` lines likewise list everything. -/
theorem salesFilter_listing (s : Sess) (name : Str) (c : Char) (pmRaw : Str)
    (env : SellEnv) (u2 pmRaw2 : Str) (env2 : SellEnv)
    (hhead : name.head? = some c) (hc : isSpaceChar c = false)
    (hstrip : pyStrip ("sales for ".toList ++ name) = "sales for ".toList ++ name)
    (hnz : s.lastSales ≠ [])
    (hfil : s.lastSales.filter
        (fun e => containsSub (strLower name) (strLower e.product_name)) ≠ [])
    (hpre : "show sales".toList.isPrefixOf (strLower (pyStrip u2)) = true) :
    (parse_and_handle s ("sales for ".toList ++ name) pmRaw env).2
      = Reply.salesListed ((s.lastSales.filter
          (fun e => containsSub (strLower name) (strLower e.product_name))).reverse) ∧
    (parse_and_handle s u2 pmRaw2 env2).2 = Reply.salesListed s.lastSales.reverse := by
  have hnil : name ≠ [] := by
    cases name
    · simp at hhead
    · simp
  constructor
  · have hlow : strLower ("sales for ".toList ++ name)
        = "sales for ".toList ++ strLower name := by
      unfold strLower
      rw [List.map_append]
      rfl
    have hg0 : ("sales for ".toList ++ strLower name)[0]? = some 's' := by
      rw [List.getElem?_append_left (by decide)]
      rfl
    have hg1 : ("sales for ".toList ++ strLower name)[1]? = some 'a' := by
      rw [List.getElem?_append_left (by decide)]
      rfl
    have hp : "sales".toList.isPrefixOf (strLower ("sales for ".toList ++ name))
        = true := by
      rw [hlow, List.isPrefixOf_iff_prefix]
      exact ⟨" for ".toList ++ strLower name, rfl⟩
    simp only [parse_and_handle]
    rw [hstrip, hlow]
    rw [if_neg (by simp)]
    rw [if_neg (by
      rintro (h | h)
      · exact ne_of_getElem? 0 (by rw [hg0]; decide) h
      · exact ne_of_getElem? 0 (by rw [hg0]; decide) h)]
    rw [if_neg (by
      rintro (h | h)
      · exact ne_of_getElem? 0 (by rw [hg0]; decide) h
      · exact ne_of_getElem? 0 (by rw [hg0]; decide) h)]
    rw [if_neg (by
      rintro (h | h | h)
      · exact ne_of_getElem? 1 (by rw [hg1]; decide) h
      · exact ne_of_getElem? 0 (by rw [hg0]; decide) h
      · exact ne_of_getElem? 0 (by rw [hg0]; decide) h)]
    rw [if_pos (Or.inr (hlow ▸ hp))]
    rw [salesForGroup_salesFor name c hhead hc]
    simp only [show_sales_reply]
    rw [if_neg hnz]
    simp only [hnil, if_false]
    rw [if_neg hfil]
  · obtain ⟨t, ht⟩ := isPrefixOf_ex hpre
    have hg0 : ("show sales".toList ++ t)[0]? = some 's' := by
      rw [List.getElem?_append_left (by decide)]
      rfl
    have hg5 : ("show sales".toList ++ t)[5]? = some 's' := by
      rw [List.getElem?_append_left (by decide)]
      rfl
    have hvne : pyStrip u2 ≠ [] := by
      intro h
      rw [h] at ht
      exact absurd ht (by simp [strLower])
    simp only [parse_and_handle]
    rw [if_neg hvne, ht]
    rw [if_neg (by
      rintro (h | h)
      · exact ne_of_getElem? 0 (by rw [hg0]; decide) h
      · exact ne_of_getElem? 0 (by rw [hg0]; decide) h)]
    rw [if_neg (by
      rintro (h | h)
      · exact ne_of_getElem? 0 (by rw [hg0]; decide) h
      · exact ne_of_getElem? 0 (by rw [hg0]; decide) h)]
    rw [if_neg (by
      rintro (h | h | h)
      · exact ne_of_getElem? 5 (by rw [hg5]; decide) h
      · exact ne_of_getElem? 0 (by rw [hg0]; decide) h
      · exact ne_of_getElem? 0 (by rw [hg0]; decide) h)]
    rw [if_pos (Or.inl (ht ▸ hpre))]
    have hsg : salesForGroup (pyStrip u2) = none := by
      simp only [salesForGroup]
      rw [if_neg (by
        rw [ht]
        intro h
        exact absurd h (by rw [(rfl :
          "sales".toList.isPrefixOf ("show sales".toList ++ t) = false)]; simp))]
    rw [hsg]
    simp only [show_sales_reply]
    rw [if_neg hnz]
    rw [if_neg hnz]

/-- Witness for `salesFilter_listing` at the concrete two-sale session. -/
theorem salesFilter_listing_witness :
    (parse_and_handle sessS ("sales for ".toList ++ "Beta".toList) [] envA).2
      = Reply.salesListed ((sessS.lastSales.filter
          (fun e => containsSub (strLower "Beta".toList) (strLower e.product_name))).reverse) ∧
    (parse_and_handle sessS "show sales for Beta".toList [] envA).2
      = Reply.salesListed sessS.lastSales.reverse :=
  salesFilter_listing sessS "Beta".toList 'B' [] envA
    "show sales for Beta".toList [] envA
    (by decide) (by decide) (by decide) (by decide) (by decide) (by decide)
